import Mathlib

/-!
Verification of the RFM (recency / frequency / monetary) pipeline of
`src/Ecommerce_User_Behavior_Analysis_Dashboard.py`.

The script is a single-pass pipeline over a list of behavior records:
filter the `buy` rows, group by `user_id` computing the max timestamp and
the row count (lines 59-63), derive `recency`, `monetary` (lines 64-66),
min-max scale the three columns (lines 81-83), run k-means with
`n_clusters=4, random_state=42` (lines 84-85), label clusters (lines
104-105) and average the columns per segment (line 119).  Timestamps are
epoch seconds (`pd.to_datetime(..., unit='s')`, line 37); `.dt.days` on a
non-negative timedelta is the floor of the difference in whole days.
Real arithmetic is modelled by `ℚ`.
-/

/-- `behavior_type` column: the four event kinds of the data set. -/
inductive BehaviorType
  | view
  | buy
  | cart
  | favorite
deriving DecidableEq, Repr

/-- One row of the input file (line 32): five positional columns, the
timestamp in epoch seconds. -/
structure BehaviorRecord where
  user_id : Nat
  item_id : Nat
  item_category : Nat
  behavior_type : BehaviorType
  timestamp : Nat
deriving DecidableEq, Repr

/-- Line 59: `buy_df = df[df['behavior_type'] == 'buy']`. -/
def buyFilter (df : List BehaviorRecord) : List BehaviorRecord :=
  df.filter (fun r => decide (r.behavior_type = BehaviorType.buy))

/-- The purchase records of one user: the rows `groupby("user_id")`
aggregates for that key (line 60). -/
def userRecords (buys : List BehaviorRecord) (u : Nat) : List BehaviorRecord :=
  buys.filter (fun r => decide (r.user_id = u))

/-- The distinct purchasing users: the group keys of line 60. -/
def usersOf (buys : List BehaviorRecord) : List Nat :=
  (buys.map (fun r => r.user_id)).dedup

/-- `('timestamp','count')` of line 61: the size of the user's group. -/
def purchaseCount (buys : List BehaviorRecord) (u : Nat) : Nat :=
  (userRecords buys u).length

/-- Maximum of a list of naturals (empty list gives 0). -/
def natMax (l : List Nat) : Nat :=
  l.foldl max 0

/-- `('timestamp','max')` of line 61: the user's latest purchase time. -/
def lastPurchase (buys : List BehaviorRecord) (u : Nat) : Nat :=
  natMax ((userRecords buys u).map (fun r => r.timestamp))

/-- Line 64: `reference_date = buy_df['timestamp'].max()`. -/
def reference_date (buys : List BehaviorRecord) : Nat :=
  natMax (buys.map (fun r => r.timestamp))

/-- Line 65: `(reference_date - rfm['last_purchase_date']).dt.days`; for a
non-negative timedelta `.dt.days` is the floor of the day difference, which
on epoch seconds is truncated division by 86400. -/
def recencyOf (buys : List BehaviorRecord) (u : Nat) : Nat :=
  (reference_date buys - lastPurchase buys u) / 86400

/-- Line 66: the constant `98 / 3.4` (exactly `490/17` over `ℚ`). -/
def monetaryRate : ℚ :=
  98 / 3.4

/-- Line 66: `rfm['monetary'] = rfm['frequency'] * (98 / 3.4)`. -/
def monetaryOf (freq : Nat) : ℚ :=
  (freq : ℚ) * monetaryRate

/-- One row of the `rfm` frame after lines 59-66. -/
structure RFMRow where
  user_id : Nat
  last_purchase_date : Nat
  frequency : Nat
  recency : Nat
  monetary : ℚ
deriving DecidableEq, Repr

/-- Lines 59-66: the `rfm` frame, one row per group key. -/
def rfmRows (buys : List BehaviorRecord) : List RFMRow :=
  (usersOf buys).map (fun u =>
    { user_id := u
      last_purchase_date := lastPurchase buys u
      frequency := purchaseCount buys u
      recency := recencyOf buys u
      monetary := monetaryOf (purchaseCount buys u) })

/-! ### Helper lemmas about `natMax` -/

theorem le_foldl_max (l : List Nat) (i : Nat) : i ≤ l.foldl max i := by
  induction l generalizing i with
  | nil => exact le_rfl
  | cons a t ih => exact le_trans (le_max_left i a) (ih (max i a))

theorem mem_le_foldl_max {a : Nat} (l : List Nat) (i : Nat) (h : a ∈ l) :
    a ≤ l.foldl max i := by
  induction l generalizing i with
  | nil => cases h
  | cons b t ih =>
    rcases List.mem_cons.mp h with hb | ht
    · subst hb
      exact le_trans (le_max_right i a) (le_foldl_max t (max i a))
    · exact ih (max i b) ht

theorem foldl_max_eq_or_mem (l : List Nat) (i : Nat) :
    l.foldl max i = i ∨ l.foldl max i ∈ l := by
  induction l generalizing i with
  | nil => exact Or.inl rfl
  | cons a t ih =>
    have hfold : (a :: t).foldl max i = t.foldl max (max i a) := rfl
    rcases ih (max i a) with h | h
    · rcases le_total i a with hle | hle
      · refine Or.inr ?_
        rw [hfold, h, max_eq_right hle]
        exact List.mem_cons_self a t
      · refine Or.inl ?_
        rw [hfold, h, max_eq_left hle]
    · exact Or.inr (by rw [hfold]; exact List.mem_cons_of_mem a h)

theorem foldl_max_le (l : List Nat) (i b : Nat) (hi : i ≤ b)
    (h : ∀ a ∈ l, a ≤ b) : l.foldl max i ≤ b := by
  induction l generalizing i with
  | nil => exact hi
  | cons a t ih =>
    exact ih (max i a) (max_le hi (h a (List.mem_cons_self a t)))
      (fun x hx => h x (List.mem_cons_of_mem a hx))

theorem le_natMax {a : Nat} (l : List Nat) (h : a ∈ l) : a ≤ natMax l :=
  mem_le_foldl_max l 0 h

theorem natMax_le (l : List Nat) (b : Nat) (h : ∀ a ∈ l, a ≤ b) :
    natMax l ≤ b :=
  foldl_max_le l 0 b (Nat.zero_le b) h

theorem natMax_mem (l : List Nat) (h : l ≠ []) : natMax l ∈ l := by
  rcases foldl_max_eq_or_mem l 0 with h0 | hm
  · cases l with
    | nil => exact absurd rfl h
    | cons a t =>
      have ha : a ≤ natMax (a :: t) :=
        le_natMax (a :: t) (List.mem_cons_self a t)
      have hz : natMax (a :: t) = 0 := h0
      have ha0 : a = 0 := Nat.le_zero.mp (hz ▸ ha)
      rw [hz, ← ha0]
      exact List.mem_cons_self a t
  · exact hm

/-! ### Membership facts about the aggregation -/

theorem mem_userRecords {buys : List BehaviorRecord} {r : BehaviorRecord} {u : Nat} :
    r ∈ userRecords buys u ↔ r ∈ buys ∧ r.user_id = u := by
  simp [userRecords, List.mem_filter]

theorem usersOf_spec {buys : List BehaviorRecord} {u : Nat} :
    u ∈ usersOf buys ↔ ∃ r ∈ buys, r.user_id = u := by
  simp [usersOf, List.mem_dedup, List.mem_map]

theorem userRecords_ne_nil {buys : List BehaviorRecord} {u : Nat}
    (hu : u ∈ usersOf buys) : userRecords buys u ≠ [] := by
  rcases usersOf_spec.mp hu with ⟨r, hr, hru⟩
  exact List.ne_nil_of_mem (mem_userRecords.mpr ⟨hr, hru⟩)

theorem lastPurchase_mem {buys : List BehaviorRecord} {u : Nat}
    (hu : u ∈ usersOf buys) :
    lastPurchase buys u ∈ (userRecords buys u).map (fun r => r.timestamp) := by
  apply natMax_mem
  simpa [List.map_eq_nil_iff] using userRecords_ne_nil hu

theorem le_lastPurchase {buys : List BehaviorRecord} {u t : Nat}
    (ht : t ∈ (userRecords buys u).map (fun r => r.timestamp)) :
    t ≤ lastPurchase buys u :=
  le_natMax _ ht

theorem timestamp_le_reference {buys : List BehaviorRecord} {r : BehaviorRecord}
    (hr : r ∈ buys) : r.timestamp ≤ reference_date buys :=
  le_natMax _ (List.mem_map.mpr ⟨r, hr, rfl⟩)

theorem lastPurchase_le_reference (buys : List BehaviorRecord) (u : Nat) :
    lastPurchase buys u ≤ reference_date buys := by
  apply natMax_le
  intro t ht
  rcases List.mem_map.mp ht with ⟨r, hr, rfl⟩
  exact timestamp_le_reference (mem_userRecords.mp hr).1

theorem rfm_map_user_id (buys : List BehaviorRecord) :
    (rfmRows buys).map RFMRow.user_id = usersOf buys := by
  rw [rfmRows, List.map_map]
  show (usersOf buys).map (fun u => u) = usersOf buys
  exact List.map_id' _

theorem natCast_sub_div_floor (a b : ℕ) (h : b ≤ a) :
    (((a - b) / 86400 : ℕ) : ℤ) = ⌊(((a : ℚ) - (b : ℚ)) / 86400)⌋ := by
  rw [← Nat.cast_sub h]
  norm_cast

/-! ### The example input of the spec: users 1-5, user 1 with ten purchases
ending at the latest timestamp; one non-purchase row checks the filter. -/

def exampleRecords : List BehaviorRecord :=
  [⟨1, 101, 11, .buy, 86400⟩, ⟨1, 102, 11, .buy, 172800⟩,
   ⟨1, 103, 11, .buy, 259200⟩, ⟨1, 104, 11, .buy, 345600⟩,
   ⟨1, 105, 11, .buy, 432000⟩, ⟨1, 106, 11, .buy, 518400⟩,
   ⟨1, 107, 11, .buy, 604800⟩, ⟨1, 108, 11, .buy, 691200⟩,
   ⟨1, 109, 11, .buy, 777600⟩, ⟨1, 110, 11, .buy, 864000⟩,
   ⟨2, 201, 12, .buy, 86400⟩, ⟨3, 301, 13, .buy, 86400⟩,
   ⟨4, 401, 14, .buy, 86400⟩, ⟨5, 501, 15, .buy, 86400⟩,
   ⟨6, 601, 16, .view, 950400⟩]

/-- The example's `rfm` row for user 1: the aggregate of user 1's group. -/
def exampleRow1 : RFMRow :=
  { user_id := 1
    last_purchase_date := lastPurchase (buyFilter exampleRecords) 1
    frequency := purchaseCount (buyFilter exampleRecords) 1
    recency := recencyOf (buyFilter exampleRecords) 1
    monetary := monetaryOf (purchaseCount (buyFilter exampleRecords) 1) }

theorem exampleRow1_mem : exampleRow1 ∈ rfmRows (buyFilter exampleRecords) :=
  List.mem_map.mpr ⟨1, by decide, rfl⟩

/-! ### C1 - C4 and C9 -/

/-- C1: the RFM aggregation over the purchase records (lines 59-63) yields
exactly one row per distinct `user_id`; each row's `frequency` is the count
of that user's purchase records and its `last_purchase_date` is the maximum
timestamp among them. -/
theorem c1_rfm_groupby (records : List BehaviorRecord) :
    ((rfmRows (buyFilter records)).map RFMRow.user_id).Nodup ∧
    (∀ u, (u ∈ (rfmRows (buyFilter records)).map RFMRow.user_id) ↔
      ∃ r ∈ buyFilter records, r.user_id = u) ∧
    ∀ row ∈ rfmRows (buyFilter records),
      row.frequency
        = ((buyFilter records).filter (fun r => decide (r.user_id = row.user_id))).length ∧
      row.last_purchase_date
        ∈ (userRecords (buyFilter records) row.user_id).map (fun r => r.timestamp) ∧
      ∀ t ∈ (userRecords (buyFilter records) row.user_id).map (fun r => r.timestamp),
        t ≤ row.last_purchase_date := by
  refine ⟨?_, ?_, ?_⟩
  · rw [rfm_map_user_id]
    exact List.nodup_dedup _
  · intro u
    rw [rfm_map_user_id]
    exact usersOf_spec
  · intro row hrow
    rcases List.mem_map.mp hrow with ⟨u, hu, rfl⟩
    exact ⟨rfl, lastPurchase_mem hu, fun t ht => le_lastPurchase ht⟩

/-- C2: every row's `recency` (line 65) is the floor of the whole-day
difference between the global reference date and the row's last purchase
date; it is never negative and vanishes for the most recent purchaser. -/
theorem c2_recency_floor (records : List BehaviorRecord) :
    ∀ row ∈ rfmRows (buyFilter records),
      ((row.recency : ℤ)
          = ⌊(((reference_date (buyFilter records) : ℚ)
              - (row.last_purchase_date : ℚ)) / 86400)⌋) ∧
      0 ≤ row.recency ∧
      (row.last_purchase_date = reference_date (buyFilter records) →
        row.recency = 0) := by
  intro row hrow
  rcases List.mem_map.mp hrow with ⟨u, hu, rfl⟩
  have hle : lastPurchase (buyFilter records) u ≤ reference_date (buyFilter records) :=
    lastPurchase_le_reference _ _
  refine ⟨natCast_sub_div_floor _ _ hle, Nat.zero_le _, ?_⟩
  intro h
  have h' : lastPurchase (buyFilter records) u = reference_date (buyFilter records) := h
  show (reference_date (buyFilter records) - lastPurchase (buyFilter records) u) / 86400 = 0
  rw [h', Nat.sub_self]

/-- C2 witness: the example's row for user 1. -/
theorem c2_recency_floor_witness :
    ((exampleRow1.recency : ℤ)
        = ⌊(((reference_date (buyFilter exampleRecords) : ℚ)
            - (exampleRow1.last_purchase_date : ℚ)) / 86400)⌋) ∧
    0 ≤ exampleRow1.recency ∧
    (exampleRow1.last_purchase_date = reference_date (buyFilter exampleRecords) →
      exampleRow1.recency = 0) :=
  c2_recency_floor exampleRecords exampleRow1 exampleRow1_mem

/-- C3: `monetary` (line 66) is exactly `frequency * (98 / 3.4)` and is a
function of the purchase count alone. -/
theorem c3_monetary_linear (records : List BehaviorRecord) :
    ∀ row ∈ rfmRows (buyFilter records),
      row.monetary = (row.frequency : ℚ) * (98 / 3.4) ∧
      ∀ row2 ∈ rfmRows (buyFilter records),
        row.frequency = row2.frequency → row.monetary = row2.monetary := by
  intro row hrow
  rcases List.mem_map.mp hrow with ⟨u, hu, rfl⟩
  refine ⟨rfl, ?_⟩
  intro row2 h2 hfreq
  rcases List.mem_map.mp h2 with ⟨v, hv, rfl⟩
  exact congrArg monetaryOf hfreq

/-- C3 witness: the example's row for user 1. -/
theorem c3_monetary_linear_witness :
    exampleRow1.monetary = (exampleRow1.frequency : ℚ) * (98 / 3.4) ∧
    ∀ row2 ∈ rfmRows (buyFilter exampleRecords),
      exampleRow1.frequency = row2.frequency →
        exampleRow1.monetary = row2.monetary :=
  c3_monetary_linear exampleRecords exampleRow1 exampleRow1_mem

theorem examplePurchaseCount1 : purchaseCount (buyFilter exampleRecords) 1 = 10 := by
  decide

/-- C4 counterexample: on the spec's example input (users 1-5, user 1 with
ten purchases ending at the latest timestamp) the pipeline's monetary value
for user 1 is `10 * (98 / 3.4) = 4900/17 ≈ 288.24`, not `294.12`. -/
theorem c4_example_counterexample :
    usersOf (buyFilter exampleRecords) = [1, 2, 3, 4, 5] ∧
    exampleRow1 ∈ rfmRows (buyFilter exampleRecords) ∧
    exampleRow1.recency = 0 ∧
    exampleRow1.frequency = 10 ∧
    exampleRow1.monetary ≠ (294.12 : ℚ) := by
  refine ⟨by decide, exampleRow1_mem, by decide, by decide, ?_⟩
  show monetaryOf (purchaseCount (buyFilter exampleRecords) 1) ≠ (294.12 : ℚ)
  rw [examplePurchaseCount1]
  norm_num [monetaryOf, monetaryRate]

/-- C4 amended: on the example input user 1 gets recency 0, frequency 10
and monetary `4900/17` (= `10 * 98/3.4`, about 288.24, not 294.12). -/
theorem c4_example_amended :
    usersOf (buyFilter exampleRecords) = [1, 2, 3, 4, 5] ∧
    exampleRow1 ∈ rfmRows (buyFilter exampleRecords) ∧
    exampleRow1.recency = 0 ∧
    exampleRow1.frequency = 10 ∧
    exampleRow1.monetary = (4900 / 17 : ℚ) := by
  refine ⟨by decide, exampleRow1_mem, by decide, by decide, ?_⟩
  show monetaryOf (purchaseCount (buyFilter exampleRecords) 1) = (4900 / 17 : ℚ)
  rw [examplePurchaseCount1]
  norm_num [monetaryOf, monetaryRate]

/-- Definition following the spec's words, for the refinement comparison of
C9: `reference_date = max(last_purchase_date) over all users`. -/
def referenceDateSpec (buys : List BehaviorRecord) : Nat :=
  natMax ((usersOf buys).map (lastPurchase buys))

/-- C9: the code's reference date (line 64, max over all purchase
timestamps) agrees with the spec's (max over users of the last purchase
date) on every non-empty purchase record set. -/
theorem c9_reference_date_refines (buys : List BehaviorRecord)
    (_h : buys ≠ []) : reference_date buys = referenceDateSpec buys := by
  apply Nat.le_antisymm
  · apply natMax_le
    intro t ht
    rcases List.mem_map.mp ht with ⟨r, hr, rfl⟩
    have hu : r.user_id ∈ usersOf buys := usersOf_spec.mpr ⟨r, hr, rfl⟩
    have h1 : r.timestamp ≤ lastPurchase buys r.user_id :=
      le_lastPurchase
        (List.mem_map.mpr ⟨r, mem_userRecords.mpr ⟨hr, rfl⟩, rfl⟩)
    exact le_trans h1 (le_natMax _ (List.mem_map.mpr ⟨r.user_id, hu, rfl⟩))
  · apply natMax_le
    intro v hv
    rcases List.mem_map.mp hv with ⟨u, hu, rfl⟩
    exact lastPurchase_le_reference buys u

/-- C9 witness: the example's purchase records. -/
theorem c9_reference_date_refines_witness :
    reference_date (buyFilter exampleRecords)
      = referenceDateSpec (buyFilter exampleRecords) :=
  c9_reference_date_refines (buyFilter exampleRecords) (by decide)

/-! ### Normalizer (lines 81-83): `MinMaxScaler` per column.
sklearn computes `(x - min) / scale` where `scale` is `max - min` with
zeros replaced by 1 (`_handle_zeros_in_scale`), so a constant column maps
to 0 everywhere through an explicit branch, not a division by zero. -/

def listMinQ : List ℚ → ℚ
  | [] => 0
  | h :: t => t.foldl min h

def listMaxQ : List ℚ → ℚ
  | [] => 0
  | h :: t => t.foldl max h

/-- sklearn `_handle_zeros_in_scale`: a zero range scales by 1. -/
def handleZeroScale (d : ℚ) : ℚ :=
  if d = 0 then 1 else d

/-- One column of `MinMaxScaler.fit_transform` (line 83). -/
def minmaxColumn (xs : List ℚ) : List ℚ :=
  xs.map (fun x => (x - listMinQ xs) / handleZeroScale (listMaxQ xs - listMinQ xs))

theorem foldl_min_le_init (t : List ℚ) (i : ℚ) : t.foldl min i ≤ i := by
  induction t generalizing i with
  | nil => exact le_rfl
  | cons a s ih => exact le_trans (ih (min i a)) (min_le_left i a)

theorem foldl_min_le_mem {x : ℚ} (t : List ℚ) (i : ℚ) (h : x ∈ t) :
    t.foldl min i ≤ x := by
  induction t generalizing i with
  | nil => cases h
  | cons a s ih =>
    rcases List.mem_cons.mp h with ha | hs
    · subst ha
      exact le_trans (foldl_min_le_init s (min i x)) (min_le_right i x)
    · exact ih (min i a) hs

theorem init_le_foldl_max (t : List ℚ) (i : ℚ) : i ≤ t.foldl max i := by
  induction t generalizing i with
  | nil => exact le_rfl
  | cons a s ih => exact le_trans (le_max_left i a) (ih (max i a))

theorem mem_le_foldl_max_q {x : ℚ} (t : List ℚ) (i : ℚ) (h : x ∈ t) :
    x ≤ t.foldl max i := by
  induction t generalizing i with
  | nil => cases h
  | cons a s ih =>
    rcases List.mem_cons.mp h with ha | hs
    · subst ha
      exact le_trans (le_max_right i x) (init_le_foldl_max s (max i x))
    · exact ih (max i a) hs

theorem listMinQ_le {xs : List ℚ} {x : ℚ} (h : x ∈ xs) : listMinQ xs ≤ x := by
  cases xs with
  | nil => cases h
  | cons a t =>
    rcases List.mem_cons.mp h with ha | ht
    · subst ha
      exact foldl_min_le_init t x
    · exact foldl_min_le_mem t a ht

theorem le_listMaxQ {xs : List ℚ} {x : ℚ} (h : x ∈ xs) : x ≤ listMaxQ xs := by
  cases xs with
  | nil => cases h
  | cons a t =>
    rcases List.mem_cons.mp h with ha | ht
    · subst ha
      exact init_le_foldl_max t x
    · exact mem_le_foldl_max_q t a ht

/-- C7: every min-max normalized value lies in `[0, 1]`, and a constant
column (max = min) normalizes to 0 through the explicit
`handleZeroScale` guard rather than a division by zero. -/
theorem c7_minmax_unit_interval (xs : List ℚ) :
    ∀ y ∈ minmaxColumn xs, (0 ≤ y ∧ y ≤ 1) ∧
      (listMaxQ xs = listMinQ xs → y = 0) := by
  intro y hy
  rcases List.mem_map.mp hy with ⟨x, hx, rfl⟩
  have hmin : listMinQ xs ≤ x := listMinQ_le hx
  have hmax : x ≤ listMaxQ xs := le_listMaxQ hx
  by_cases hc : listMaxQ xs - listMinQ xs = 0
  · have hme : listMaxQ xs = listMinQ xs := sub_eq_zero.mp hc
    have hxe : x = listMinQ xs := le_antisymm (hme ▸ hmax) hmin
    have hy0 : (x - listMinQ xs) / handleZeroScale (listMaxQ xs - listMinQ xs) = 0 := by
      rw [hxe, sub_self, zero_div]
    exact ⟨⟨by rw [hy0], by rw [hy0]; norm_num⟩, fun _ => hy0⟩
  · have hle : listMinQ xs ≤ listMaxQ xs := le_trans hmin hmax
    have hpos : 0 < listMaxQ xs - listMinQ xs := by
      rcases lt_or_eq_of_le (sub_nonneg.mpr hle) with hlt | heq
      · exact hlt
      · exact absurd heq.symm hc
    have hz : handleZeroScale (listMaxQ xs - listMinQ xs) = listMaxQ xs - listMinQ xs :=
      if_neg hc
    refine ⟨⟨?_, ?_⟩, ?_⟩
    · rw [hz]
      exact div_nonneg (sub_nonneg.mpr hmin) (le_of_lt hpos)
    · rw [hz]
      exact (div_le_one hpos).mpr (by linarith)
    · intro heq
      exact absurd (by rw [heq, sub_self]) hc

/-- C7 witness: the column `[0, 2]` normalizes its entry 2 to 1. -/
theorem c7_minmax_unit_interval_witness :
    (0 ≤ (1 : ℚ) ∧ (1 : ℚ) ≤ 1) ∧
    (listMaxQ [0, 2] = listMinQ [0, 2] → (1 : ℚ) = 0) :=
  c7_minmax_unit_interval [0, 2] 1
    (by norm_num [minmaxColumn, listMinQ, listMaxQ, handleZeroScale])

/-! ### Segmenter (lines 84-85): `KMeans(n_clusters=4, random_state=42)`.
The library call is modelled by its documented semantics: an explicit
sample-count check (`fit` raises a ValueError unless
`n_samples >= n_clusters`), a deterministic centroid initialization driven
by the fixed seed, and Lloyd iteration - assign each point to the nearest
centroid by squared Euclidean distance, recompute centroids as means of
their assigned points, stop when the centroids are stable or after the
default iteration cap of 300. -/

/-- One normalized RFM sample: the three scaled columns. -/
structure Point3 where
  r : ℚ
  f : ℚ
  m : ℚ
deriving DecidableEq, Repr

/-- Squared Euclidean distance in the scaled RFM space. -/
def dist2 (p q : Point3) : ℚ :=
  (p.r - q.r) * (p.r - q.r) + (p.f - q.f) * (p.f - q.f)
    + (p.m - q.m) * (p.m - q.m)

def nearestIdxAux (p : Point3) : List Point3 → Nat → Nat → ℚ → Nat
  | [], _, best, _ => best
  | c :: rest, i, best, bestd =>
    if dist2 p c < bestd then nearestIdxAux p rest (i + 1) i (dist2 p c)
    else nearestIdxAux p rest (i + 1) best bestd

/-- Index of the nearest centroid (ties to the lowest index). -/
def nearestIdx (cs : List Point3) (p : Point3) : Nat :=
  match cs with
  | [] => 0
  | c :: rest => nearestIdxAux p rest 1 0 (dist2 p c)

def assignAll (cs pts : List Point3) : List Nat :=
  pts.map (nearestIdx cs)

/-- Arithmetic mean of a list of rationals (0 on the empty list). -/
def meanQ (l : List ℚ) : ℚ :=
  l.sum / l.length

/-- Mean of the assigned points; an empty cluster keeps its old centroid. -/
def meanPoint (pts : List Point3) (old : Point3) : Point3 :=
  match pts with
  | [] => old
  | _ :: _ =>
    ⟨meanQ (pts.map Point3.r), meanQ (pts.map Point3.f), meanQ (pts.map Point3.m)⟩

def clusterMembers (pts : List Point3) (asg : List Nat) (i : Nat) : List Point3 :=
  ((pts.zip asg).filter (fun pa => decide (pa.2 = i))).map (fun pa => pa.1)

def updateCentroids (pts : List Point3) (asg : List Nat) (cs : List Point3) :
    List Point3 :=
  (List.range cs.length).map
    (fun i => meanPoint (clusterMembers pts asg i) (cs.getD i ⟨0, 0, 0⟩))

/-- Lloyd iteration with a fuel cap; stops early once centroids are stable. -/
def lloyd : Nat → List Point3 → List Point3 → List Nat
  | 0, cs, pts => assignAll cs pts
  | fuel + 1, cs, pts =>
    if updateCentroids pts (assignAll cs pts) cs = cs then assignAll cs pts
    else lloyd fuel (updateCentroids pts (assignAll cs pts) cs) pts

/-- A linear congruential step: the deterministic pseudo-random source the
fixed `random_state` seeds. -/
def lcgStep (s : Nat) : Nat :=
  (s * 1103515245 + 12345) % 2147483648

def seededIndices : Nat → Nat → Nat → List Nat
  | 0, _, _ => []
  | k + 1, s, n => (lcgStep s % n) :: seededIndices k (lcgStep s) n

/-- Deterministic seeded centroid initialization. -/
def seededCentroids (k seed : Nat) (pts : List Point3) : List Point3 :=
  (seededIndices k seed pts.length).map (fun i => pts.getD i ⟨0, 0, 0⟩)

/-- The conditions on which the run halts: the scaler's `check_array`
"0 sample(s)" ValueError and KMeans' `n_samples >= n_clusters` ValueError. -/
inductive PipelineError
  | emptyDataset
  | insufficientSamples
deriving DecidableEq, Repr

/-- Lines 82-83, `MinMaxScaler().fit_transform`: `check_array` demands at
least one sample, then each column is min-max scaled independently. -/
def fitTransform (rows : List Point3) : Except PipelineError (List Point3) :=
  if rows.length = 0 then .error .emptyDataset
  else
    .ok (((minmaxColumn (rows.map Point3.r)).zip
        ((minmaxColumn (rows.map Point3.f)).zip (minmaxColumn (rows.map Point3.m)))).map
      (fun x => ⟨x.1, x.2.1, x.2.2⟩))

/-- Lines 84-85, `KMeans(n_clusters=4, random_state=42).fit_predict`:
sklearn raises unless `n_samples >= n_clusters`, then runs seeded Lloyd
iteration with the default cap of 300. -/
def fitPredict (k seed : Nat) (pts : List Point3) : Except PipelineError (List Nat) :=
  if pts.length < k then .error .insufficientSamples
  else .ok (lloyd 300 (seededCentroids k seed pts) pts)

/-- Line 104: the fixed index-to-name table; pandas `Series.map` yields
NaN for a key outside the dict. -/
def segmentLabels (c : Nat) : String :=
  match c with
  | 0 => "VIP"
  | 1 => "Churn Risk"
  | 2 => "Loyal"
  | 3 => "At_Risk"
  | _ => "NaN"

/-- One row of the `rfm` frame after lines 85 and 105 added the `cluster`
and `segment` columns. -/
structure SegmentedRow where
  user_id : Nat
  last_purchase_date : Nat
  frequency : Nat
  recency : Nat
  monetary : ℚ
  cluster : Nat
  segment : String
deriving DecidableEq, Repr

/-- Lines 85 and 105: attach the cluster assignment and its label. -/
def attachClusters (rows : List RFMRow) (asg : List Nat) : List SegmentedRow :=
  (rows.zip asg).map (fun rc =>
    { user_id := rc.1.user_id
      last_purchase_date := rc.1.last_purchase_date
      frequency := rc.1.frequency
      recency := rc.1.recency
      monetary := rc.1.monetary
      cluster := rc.2
      segment := segmentLabels rc.2 })

/-- The charts the script renders, in source order. -/
inductive Chart
  | rawTable
  | rfmHistograms
  | clusterBoxplots
  | clusterPie
  | segmentBar
  | segmentHeatmap
  | dailyTrend
  | monthlyTrend
  | pairplot
deriving DecidableEq, Repr

/-- The scaler input (line 81): the three RFM columns of a row. -/
def toPoint (row : RFMRow) : Point3 :=
  ⟨(row.recency : ℚ), (row.frequency : ℚ), row.monetary⟩

/-- Lines 59-105 as one computation: the segmented frame, or the error
that halts the run. -/
def runResult (df : List BehaviorRecord) (seed : Nat) :
    Except PipelineError (List SegmentedRow) :=
  match fitTransform ((rfmRows (buyFilter df)).map toPoint) with
  | .error e => .error e
  | .ok scaled =>
    match fitPredict 4 seed scaled with
    | .error e => .error e
    | .ok asg => .ok (attachClusters (rfmRows (buyFilter df)) asg)

/-- The charts rendered before the run halts: the raw table (line 56) and
the RFM histograms (lines 69-78) precede the scaler and the clustering;
the remaining charts render only when clustering succeeded. -/
def runCharts (df : List BehaviorRecord) (seed : Nat) : List Chart :=
  match runResult df seed with
  | .error _ => [Chart.rawTable, Chart.rfmHistograms]
  | .ok _ =>
    [Chart.rawTable, Chart.rfmHistograms, Chart.clusterBoxplots,
     Chart.clusterPie, Chart.segmentBar, Chart.segmentHeatmap,
     Chart.dailyTrend, Chart.monthlyTrend, Chart.pairplot]

/-- One full script run: the rendered charts and the final result. -/
def runScript (df : List BehaviorRecord) (seed : Nat) :
    List Chart × Except PipelineError (List SegmentedRow) :=
  (runCharts df seed, runResult df seed)

/-- Line 119 grouping: the rows of one segment. -/
def segmentGroup (rows : List SegmentedRow) (s : String) : List SegmentedRow :=
  rows.filter (fun r => decide (r.segment = s))

/-- Line 119, before the `.round(2)` display rounding: the grouped mean of
the `monetary` column. -/
def segmentMeanMonetary (rows : List SegmentedRow) (s : String) : ℚ :=
  meanQ ((segmentGroup rows s).map SegmentedRow.monetary)

/-- Line 119, before the `.round(2)` display rounding: the grouped mean of
the `frequency` column. -/
def segmentMeanFrequency (rows : List SegmentedRow) (s : String) : ℚ :=
  meanQ ((segmentGroup rows s).map (fun r => (r.frequency : ℚ)))

/-! ### Evaluation lemmas for the run -/

theorem runScript_fst (df : List BehaviorRecord) (seed : Nat) :
    (runScript df seed).1 = runCharts df seed :=
  rfl

theorem runScript_snd (df : List BehaviorRecord) (seed : Nat) :
    (runScript df seed).2 = runResult df seed :=
  rfl

theorem minmaxColumn_length (xs : List ℚ) :
    (minmaxColumn xs).length = xs.length := by
  simp [minmaxColumn]

theorem fitTransform_ok {rows : List Point3} (h : rows.length ≠ 0) :
    ∃ scaled, fitTransform rows = .ok scaled ∧ scaled.length = rows.length := by
  refine ⟨((minmaxColumn (rows.map Point3.r)).zip
      ((minmaxColumn (rows.map Point3.f)).zip
        (minmaxColumn (rows.map Point3.m)))).map
    (fun x => ⟨x.1, x.2.1, x.2.2⟩), ?_, ?_⟩
  · unfold fitTransform
    rw [if_neg h]
  · simp [minmaxColumn_length]

theorem rfm_length (buys : List BehaviorRecord) :
    (rfmRows buys).length = (usersOf buys).length := by
  simp [rfmRows]

theorem usersOf_ne_nil {buys : List BehaviorRecord} (h : buys ≠ []) :
    usersOf buys ≠ [] := by
  cases buys with
  | nil => exact absurd rfl h
  | cons r t =>
    exact List.ne_nil_of_mem (usersOf_spec.mpr ⟨r, List.mem_cons_self r t, rfl⟩)

theorem runResult_empty (df : List BehaviorRecord) (seed : Nat)
    (h : buyFilter df = []) :
    runResult df seed = .error .emptyDataset := by
  unfold runResult
  rw [h]
  rfl

theorem runResult_insufficient (df : List BehaviorRecord) (seed : Nat)
    (hne : buyFilter df ≠ []) (hlt : (usersOf (buyFilter df)).length < 4) :
    runResult df seed = .error .insufficientSamples := by
  have hn0 : ((rfmRows (buyFilter df)).map toPoint).length ≠ 0 := by
    simp only [List.length_map, rfm_length]
    exact (List.length_pos.mpr (usersOf_ne_nil hne)).ne'
  obtain ⟨scaled, hft, hlen⟩ := fitTransform_ok hn0
  have hsl : scaled.length < 4 := by
    rw [hlen]
    simpa only [List.length_map, rfm_length] using hlt
  have hfp : fitPredict 4 seed scaled = .error .insufficientSamples := by
    unfold fitPredict
    rw [if_pos hsl]
  unfold runResult
  split
  · rename_i e heq
    rw [hft] at heq
    exact Except.noConfusion heq
  · rename_i sc heq
    rw [hft] at heq
    injection heq with hsc
    subst hsc
    split
    · rename_i e2 heq2
      rw [hfp] at heq2
      injection heq2 with he2
      rw [he2]
    · rename_i asg heq2
      rw [hfp] at heq2
      exact Except.noConfusion heq2

theorem runResult_ok_of_enough (df : List BehaviorRecord) (seed : Nat)
    (h4 : 4 ≤ (usersOf (buyFilter df)).length) :
    ∃ rows, runResult df seed = .ok rows := by
  have hn0 : ((rfmRows (buyFilter df)).map toPoint).length ≠ 0 := by
    simp only [List.length_map, rfm_length]
    omega
  obtain ⟨scaled, hft, hlen⟩ := fitTransform_ok hn0
  have hge : ¬scaled.length < 4 := by
    rw [hlen]
    simp only [List.length_map, rfm_length]
    omega
  have hfp : fitPredict 4 seed scaled
      = .ok (lloyd 300 (seededCentroids 4 seed scaled) scaled) := by
    unfold fitPredict
    rw [if_neg hge]
  refine ⟨attachClusters (rfmRows (buyFilter df))
    (lloyd 300 (seededCentroids 4 seed scaled) scaled), ?_⟩
  unfold runResult
  split
  · rename_i e heq
    rw [hft] at heq
    exact Except.noConfusion heq
  · rename_i sc heq
    rw [hft] at heq
    injection heq with hsc
    subst hsc
    split
    · rename_i e2 heq2
      rw [hfp] at heq2
      exact Except.noConfusion heq2
    · rename_i asg heq2
      rw [hfp] at heq2
      injection heq2 with ha
      rw [← ha]

/-- The segmented frame of a successful run (empty on a failed one). -/
def okRows (e : Except PipelineError (List SegmentedRow)) : List SegmentedRow :=
  match e with
  | .ok rows => rows
  | .error _ => []

theorem okRows_spec {e : Except PipelineError (List SegmentedRow)}
    (h : ∃ rows, e = .ok rows) : e = .ok (okRows e) := by
  rcases h with ⟨rows, rfl⟩
  rfl

theorem runResult_ok_shape {df : List BehaviorRecord} {seed : Nat}
    {rows : List SegmentedRow} (h : runResult df seed = .ok rows) :
    ∃ asg, rows = attachClusters (rfmRows (buyFilter df)) asg := by
  unfold runResult at h
  split at h
  · exact Except.noConfusion h
  · split at h
    · exact Except.noConfusion h
    · rename_i asg heq2
      injection h with hr
      exact ⟨asg, hr.symm⟩

theorem rfmRows_monetary (buys : List BehaviorRecord) :
    ∀ row ∈ rfmRows buys, row.monetary = (row.frequency : ℚ) * monetaryRate := by
  intro row hrow
  rcases List.mem_map.mp hrow with ⟨u, _, rfl⟩
  rfl

theorem attachClusters_monetary {rows : List RFMRow} {asg : List Nat}
    (h : ∀ r ∈ rows, r.monetary = (r.frequency : ℚ) * monetaryRate) :
    ∀ s ∈ attachClusters rows asg,
      s.monetary = (s.frequency : ℚ) * monetaryRate := by
  intro s hs
  rcases List.mem_map.mp hs with ⟨⟨r, c⟩, hrc, rfl⟩
  exact h r (List.of_mem_zip hrc).1

theorem sum_map_monetary {l : List SegmentedRow} {c : ℚ}
    (h : ∀ r ∈ l, r.monetary = (r.frequency : ℚ) * c) :
    (l.map SegmentedRow.monetary).sum
      = c * (l.map (fun r => (r.frequency : ℚ))).sum := by
  induction l with
  | nil => simp
  | cons a t ih =>
    simp only [List.map_cons, List.sum_cons]
    rw [h a (List.mem_cons_self a t),
      ih (fun r hr => h r (List.mem_cons_of_mem a hr))]
    ring

/-! ### C5, C6, C8, C10 -/

/-- C5 counterexample: on an input with zero purchase records the run does
halt with the no-data condition before clustering, but charts (the raw
table and the RFM histograms) are rendered before the failure,
contradicting the claim that no charts are rendered. -/
theorem c5_empty_counterexample :
    (runScript [] 42).2 = Except.error PipelineError.emptyDataset ∧
    Chart.rfmHistograms ∈ (runScript [] 42).1 :=
  ⟨rfl, by decide⟩

/-- C5 amended: with zero purchase records the aggregator yields an empty
frame and the run halts with the scaler's no-data condition before
clustering, producing no segmented output - but the raw-table and
RFM-histogram charts are rendered before the failure. -/
theorem c5_empty_dataset (df : List BehaviorRecord) (seed : Nat)
    (h : buyFilter df = []) :
    rfmRows (buyFilter df) = [] ∧
    (runScript df seed).2 = Except.error PipelineError.emptyDataset ∧
    (∀ rows, (runScript df seed).2 ≠ Except.ok rows) ∧
    (runScript df seed).1 = [Chart.rawTable, Chart.rfmHistograms] := by
  have hres : runResult df seed = .error .emptyDataset :=
    runResult_empty df seed h
  have hch : runCharts df seed = [Chart.rawTable, Chart.rfmHistograms] := by
    unfold runCharts
    rw [hres]
  refine ⟨by rw [h]; rfl, by rw [runScript_snd, hres], ?_,
    by rw [runScript_fst, hch]⟩
  intro rows hc
  rw [runScript_snd, hres] at hc
  exact Except.noConfusion hc

/-- A record set with no purchases at all: one `view` row. -/
def exampleViews : List BehaviorRecord :=
  [⟨6, 601, 16, .view, 950400⟩]

/-- C5 witness: the view-only input. -/
theorem c5_empty_dataset_witness :
    rfmRows (buyFilter exampleViews) = [] ∧
    (runScript exampleViews 42).2 = Except.error PipelineError.emptyDataset ∧
    (∀ rows, (runScript exampleViews 42).2 ≠ Except.ok rows) ∧
    (runScript exampleViews 42).1 = [Chart.rawTable, Chart.rfmHistograms] :=
  c5_empty_dataset exampleViews 42 (by decide)

/-- C6: with fewer than 4 distinct purchasing users the run never produces
cluster assignments, and as soon as at least one purchase exists the halt
is KMeans' explicit insufficient-samples condition. -/
theorem c6_insufficient_samples (df : List BehaviorRecord) (seed : Nat)
    (h : (usersOf (buyFilter df)).length < 4) :
    (∀ rows, (runScript df seed).2 ≠ Except.ok rows) ∧
    (buyFilter df ≠ [] →
      (runScript df seed).2 = Except.error PipelineError.insufficientSamples) := by
  constructor
  · intro rows hc
    rw [runScript_snd] at hc
    by_cases hb : buyFilter df = []
    · rw [runResult_empty df seed hb] at hc
      exact Except.noConfusion hc
    · rw [runResult_insufficient df seed hb h] at hc
      exact Except.noConfusion hc
  · intro hb
    rw [runScript_snd, runResult_insufficient df seed hb h]

/-- A record set with only two distinct purchasing users. -/
def exampleTwoUsers : List BehaviorRecord :=
  [⟨1, 101, 11, .buy, 86400⟩, ⟨2, 201, 12, .buy, 172800⟩]

/-- C6 witness: the two-user input. -/
theorem c6_insufficient_samples_witness :
    (∀ rows, (runScript exampleTwoUsers 42).2 ≠ Except.ok rows) ∧
    (buyFilter exampleTwoUsers ≠ [] →
      (runScript exampleTwoUsers 42).2
        = Except.error PipelineError.insufficientSamples) :=
  c6_insufficient_samples exampleTwoUsers 42 (by decide)

/-- C8: the run is a deterministic function of the input and the seed: two
runs on identical input with the same fixed seed agree exactly, charts and
cluster assignments included. -/
theorem c8_deterministic (df : List BehaviorRecord) (seed : Nat)
    (out₁ out₂ : List Chart × Except PipelineError (List SegmentedRow))
    (h₁ : out₁ = runScript df seed) (h₂ : out₂ = runScript df seed) :
    out₁ = out₂ :=
  h₁.trans h₂.symm

/-- C8 witness: two runs on the example input with seed 42. -/
theorem c8_deterministic_witness :
    runScript exampleRecords 42 = runScript exampleRecords 42 :=
  c8_deterministic exampleRecords 42 (runScript exampleRecords 42)
    (runScript exampleRecords 42) rfl rfl

/-- C10: in the segment summary (line 119, before display rounding) every
segment's mean monetary equals its mean frequency times `98 / 3.4`: the
grouped mean commutes with the linear monetary column. -/
theorem c10_segment_mean_monetary (df : List BehaviorRecord) (seed : Nat)
    (rows : List SegmentedRow) (h : (runScript df seed).2 = Except.ok rows)
    (s : String) :
    segmentMeanMonetary rows s = (98 / 3.4) * segmentMeanFrequency rows s := by
  rw [runScript_snd] at h
  obtain ⟨asg, rfl⟩ := runResult_ok_shape h
  have hmon : ∀ r ∈ segmentGroup (attachClusters (rfmRows (buyFilter df)) asg) s,
      r.monetary = (r.frequency : ℚ) * monetaryRate := by
    intro r hr
    exact attachClusters_monetary (rfmRows_monetary _) r (List.mem_of_mem_filter hr)
  unfold segmentMeanMonetary segmentMeanFrequency meanQ
  rw [sum_map_monetary hmon, List.length_map, List.length_map, mul_div_assoc]
  rfl

/-- The segmented frame of the example run. -/
def exampleSegmented : List SegmentedRow :=
  okRows (runResult exampleRecords 42)

theorem exampleRun_ok :
    (runScript exampleRecords 42).2 = Except.ok exampleSegmented :=
  okRows_spec (runResult_ok_of_enough exampleRecords 42 (by decide))

/-- C10 witness: the VIP segment of the example run. -/
theorem c10_segment_mean_monetary_witness :
    segmentMeanMonetary exampleSegmented "VIP"
      = (98 / 3.4) * segmentMeanFrequency exampleSegmented "VIP" :=
  c10_segment_mean_monetary exampleRecords 42 exampleSegmented exampleRun_ok "VIP"
